import Mathlib

/-
Verification development for the typensearch migration subsystem.

The definitions below are a shallow embedding of `src/migration.ts` and the
migration-related methods of `src/model.ts`.  Cluster I/O is modelled by an
effect monad `Eff` that records every cluster call in a trace and consumes a
response stream `Beh : Nat → Except ErrVal RespData` (the n-th issued call
receives response `beh n`); `await` sequencing in the source becomes monadic
sequencing, so the order of the trace is the order in which the source issues
its blocking calls.  Wall-clock values (`Date.now()`, `new Date()`) and the
generated UUID are passed in as parameters, since they are the only
non-determinism besides the cluster responses.  JavaScript objects are
insertion-ordered, so mappings become association lists; the source compares
`fields` and `properties` sub-objects only via `JSON.stringify`, so those
sub-objects are carried opaquely as their serialisations (`Option String`),
on which string equality coincides with the source's stringify comparison.
-/

namespace Typensearch

/-- A thrown JavaScript error, as observed by the migration code: a message
and, for client errors, an optional HTTP status code. -/
structure ErrVal where
  statusCode : Option Nat := none
  msg : String := ""
deriving DecidableEq, Repr

/-- The slice of `FieldOptions` (src/types.ts) that the migration subsystem
reads: the declared `type`, the multi-field`fields` sub-object and the nested
`properties` sub-object (both opaque, compared by the source only through
`JSON.stringify`, hence carried as their serialisations; `none` models the
key being absent), and whether a `__meta` key is present (the source strips
it from declared fields before comparing and before storing options in plan
details).  Field-level options never read by the migration code (validators,
analyzers, boosts, ...) are not represented. -/
structure FieldOptions where
  type : String
  fieldsJson : Option String := none
  propertiesJson : Option String := none
  hasMeta : Bool := false
deriving DecidableEq, Repr

/-- A JavaScript object mapping field names to field options, as an
insertion-ordered association list. -/
abbrev Mapping := List (String × FieldOptions)

/-- `Object.keys` of a mapping. -/
def keys (m : Mapping) : List String := m.map (·.1)

/-- `m[f]` for a field known to be present; total with a dummy default. -/
def getF (m : Mapping) (f : String) : FieldOptions :=
  (m.lookup f).getD { type := "" }

/-- `const { __meta: _, ...rest } = o` — drop the `__meta` key. -/
def stripMeta (o : FieldOptions) : FieldOptions := { o with hasMeta := false }

/-- One entry of `MigrationPlan.details` (src/types.ts): the change kind
discriminator (the source names it `type`) and the optional old/new types
and options. -/
structure FieldChange where
  type : String
  oldType : Option String := none
  newType : Option String := none
  oldOptions : Option FieldOptions := none
  newOptions : Option FieldOptions := none
deriving DecidableEq, Repr

/-- `MigrationPlan` (src/types.ts); `details` is a JavaScript object built by
inserting added, then modified, then deleted fields. -/
structure MigrationPlan where
  indexName : String
  addedFields : List String
  modifiedFields : List String
  deletedFields : List String
  requiresReindex : Bool
  estimatedDuration : String
  details : List (String × FieldChange)
deriving DecidableEq, Repr

/-- `MigrationOptions` (src/types.ts); optional booleans default to absent =
falsy, modelled as `false`; `reindex` and `deleteFields` are declared in the
source but never read by the migration code. -/
structure MigrationOptions where
  dryRun : Bool := false
  backup : Bool := false
  reindex : Bool := false
  deleteFields : Bool := false
  timeout : Option String := none
  waitForCompletion : Option Bool := none
deriving DecidableEq, Repr

/-- The `rolledBack` sub-object of a `MigrationHistory` entry. -/
structure RolledBackInfo where
  timestamp : Nat
  success : Bool
  errors : List ErrVal := []
deriving DecidableEq, Repr

/-- `MigrationResult` (src/types.ts), merged with its `MigrationHistory`
extension (`MigrationHistory extends MigrationResult` adds only the optional
`rolledBack` sub-object). -/
structure MigrationResult where
  success : Bool
  duration : Nat
  migrationId : String
  timestamp : Nat
  plan : MigrationPlan
  errors : List ErrVal := []
  error : Option String := none
  backupIndex : Option String := none
  rolledBack : Option RolledBackInfo := none
deriving DecidableEq, Repr

/-- `MigrationHistory` is `MigrationResult` plus the optional `rolledBack`
sub-object, which is already carried by our `MigrationResult`. -/
abbrev MigrationHistory := MigrationResult

/-- `IndexMetadata` (src/types.ts): the declared schema of one model. -/
structure IndexMetadata where
  name : Option String := none
  numberOfShards : Option Nat := none
  numberOfReplicas : Option Nat := none
  properties : Mapping
deriving DecidableEq, Repr

/-- `compareSchemas` (src/migration.ts).  Pure: the source function is
`async` but performs no I/O.  Field-by-field translation of the source:
added = declared keys not live, deleted = live keys not declared, modified =
shared keys whose `type` differs or whose `fields` / `properties`
serialisations differ; `requiresReindex` exactly when modified or deleted is
non-empty; details built by inserting added, then modified, then deleted. -/
def compareSchemas (indexName : String) (currentMapping : Mapping)
    (metadata : IndexMetadata) : MigrationPlan :=
  let currentFields := keys currentMapping
  let newFields := keys metadata.properties
  let addedFields := newFields.filter fun f => !(currentFields.contains f)
  let deletedFields := currentFields.filter fun f => !(newFields.contains f)
  let modifiedFields := newFields.filter fun f =>
    if !(currentFields.contains f) then false
    else
      let currentField := getF currentMapping f
      let newField := stripMeta (getF metadata.properties f)
      currentField.type != newField.type
        || currentField.fieldsJson != newField.fieldsJson
        || currentField.propertiesJson != newField.propertiesJson
  let requiresReindex :=
    decide (modifiedFields.length > 0) || decide (deletedFields.length > 0)
  let estimatedDuration := if requiresReindex then "5-10 minutes" else "1-2 minutes"
  let details : List (String × FieldChange) :=
    (addedFields.map fun field =>
      let newOptions := stripMeta (getF metadata.properties field)
      (field, { type := "added", newType := some newOptions.type,
                newOptions := some newOptions }))
    ++ (modifiedFields.map fun field =>
      let newOptions := stripMeta (getF metadata.properties field)
      (field, { type := "modified",
                oldType := some (getF currentMapping field).type,
                newType := some newOptions.type,
                oldOptions := some (getF currentMapping field),
                newOptions := some newOptions }))
    ++ (deletedFields.map fun field =>
      (field, { type := "deleted",
                oldType := some (getF currentMapping field).type,
                oldOptions := some (getF currentMapping field) }))
  { indexName, addedFields, modifiedFields, deletedFields,
    requiresReindex, estimatedDuration, details }

/-- One action of an `updateAliases` request. -/
inductive AliasAction where
  | removeAlias (index aliasName : String)
  | addAlias (index aliasName : String)
deriving DecidableEq, Repr

/-- One observable operation issued by the migration code: the cluster calls
of src/migration.ts, plus `logError` for `console.error`. -/
inductive ClusterOp where
  | getMapping (index : String)
  | createIndex (index : String) (properties : Mapping)
  | reindexOp (source dest : String) (waitForCompletion : Bool) (timeout : String)
  | updateAliases (actions : List AliasAction)
  | deleteIndex (index : String)
  | putAlias (index name : String)
  | putMapping (index : String) (properties : List (String × String))
  | indexDoc (index id : String) (body : MigrationHistory)
  | updateDoc (index id : String) (rolledBack : RolledBackInfo)
  | searchIndex (index : String)
  | indexExists (index : String)
  | logError (msg : String)
deriving DecidableEq, Repr

/-- The payload of a successful cluster response, as read by the code. -/
inductive RespData where
  | unit
  | mapping (m : Mapping)
  | boolResp (b : Bool)
  | hits (hs : List MigrationHistory)
deriving DecidableEq, Repr

/-- The cluster's behaviour: the response to the n-th issued call. -/
abbrev Beh := Nat → Except ErrVal RespData

/-- Effect-monad state: number of calls issued so far and the trace of
issued operations, in order. -/
structure EffSt where
  k : Nat
  trace : List ClusterOp
deriving Repr

/-- The effect monad: given the cluster behaviour and the current state,
an effectful computation yields a new state and either a value or a thrown
error (rejected promise). -/
def Eff (α : Type) : Type := Beh → EffSt → EffSt × Except ErrVal α

instance : Monad Eff where
  pure a := fun _ s => (s, Except.ok a)
  bind x f := fun beh s =>
    match x beh s with
    | (s', Except.ok a) => f a beh s'
    | (s', Except.error e) => (s', Except.error e)

instance : MonadExceptOf ErrVal Eff where
  throw e := fun _ s => (s, Except.error e)
  tryCatch x h := fun beh s =>
    match x beh s with
    | (s', Except.ok a) => (s', Except.ok a)
    | (s', Except.error e) => h e beh s'

/-- Issue one cluster call: record it in the trace and consume the next
response from the behaviour stream. -/
def call (op : ClusterOp) : Eff RespData := fun beh s =>
  ({ k := s.k + 1, trace := s.trace ++ [op] },
    match beh s.k with
    | Except.ok d => Except.ok d
    | Except.error e => Except.error e)

/-- Record a non-cluster observable (console logging) without consuming a
cluster response. -/
def emit (op : ClusterOp) : Eff Unit := fun _ s =>
  ({ s with trace := s.trace ++ [op] }, Except.ok ())

/-- Reify the outcome of a sub-computation instead of propagating a throw
(used to translate `try \x7b ... \x7d catch` blocks whose handler needs local
variables of the enclosing scope). -/
def toExcept {α : Type} (x : Eff α) : Eff (Except ErrVal α) := fun beh s =>
  match x beh s with
  | (s', r) => (s', Except.ok r)

/-- `response.body[indexName].mappings.properties || \x7b\x7d` on a get-mapping
response; a payload of the wrong shape reads as the empty mapping. -/
def respToMapping : RespData → Mapping
  | RespData.mapping m => m
  | _ => []

/-- Read an index-exists response body as a boolean. -/
def respToBool : RespData → Bool
  | RespData.boolResp b => b
  | _ => false

/-- Read a search response's hits as history entries. -/
def respToHits : RespData → List MigrationHistory
  | RespData.hits hs => hs
  | _ => []

/-- The reserved system index for migration history (src/migration.ts). -/
def MIGRATION_INDEX : String := ".typensearch-migrations"

/-- `getCurrentMapping` (src/migration.ts): fetch the live mapping, and on
any error return the empty mapping instead of raising. -/
def getCurrentMapping (indexName : String) : Eff Mapping :=
  tryCatch
    (do
      let r ← call (ClusterOp.getMapping indexName)
      pure (respToMapping r))
    (fun _ => pure [])

/-- `createBackup` (src/migration.ts): derive the backup index name, create
it with the live mapping, and synchronously copy all documents into it. -/
def createBackup (indexName migrationId : String) : Eff String := do
  let backupIndex := indexName ++ "_backup_" ++ migrationId
  let currentMapping ← getCurrentMapping indexName
  let _ ← call (ClusterOp.createIndex backupIndex currentMapping)
  let _ ← call (ClusterOp.reindexOp indexName backupIndex true "1h")
  pure backupIndex

/-- The fixed mapping with which `saveMigrationHistory` lazily creates the
reserved history index; the `rolledBack` sub-properties are carried as their
serialisation. -/
def historyIndexMapping : Mapping :=
  [("migrationId", { type := "keyword" }),
   ("timestamp", { type := "date" }),
   ("plan", { type := "object" }),
   ("result", { type := "object" }),
   ("backupIndex", { type := "keyword" }),
   ("rolledBack",
    { type := "object",
      propertiesJson := some "\x7btimestamp:date,success:boolean,errors:object\x7d" })]

/-- `saveMigrationHistory` (src/migration.ts): index the entry under its
migration id; if that fails with status 404, create the reserved index with
the fixed mapping and retry the write once; any other error propagates. -/
def saveMigrationHistory (history : MigrationHistory) : Eff Unit :=
  tryCatch
    (do
      let _ ← call (ClusterOp.indexDoc MIGRATION_INDEX history.migrationId history)
      pure ())
    (fun error =>
      if error.statusCode = some 404 then do
        let _ ← call (ClusterOp.createIndex MIGRATION_INDEX historyIndexMapping)
        let _ ← call (ClusterOp.indexDoc MIGRATION_INDEX history.migrationId history)
        pure ()
      else
        throw error)

/-- `updateMigrationHistory` (src/migration.ts): partial update of the
history document (only ever used for the `rolledBack` sub-object). -/
def updateMigrationHistory (migrationId : String) (update : RolledBackInfo) :
    Eff Unit := do
  let _ ← call (ClusterOp.updateDoc MIGRATION_INDEX migrationId update)
  pure ()

/-- `getMigrationHistory` (src/migration.ts): search the reserved index; a
404 (index absent) reads as the empty history, other errors propagate. -/
def getMigrationHistory : Eff (List MigrationHistory) :=
  tryCatch
    (do
      let r ← call (ClusterOp.searchIndex MIGRATION_INDEX)
      pure (respToHits r))
    (fun error =>
      if error.statusCode = some 404 then pure []
      else throw error)

/-- The supported-type whitelist of `executeMigration` (src/migration.ts). -/
def validTypes : List String :=
  ["text", "keyword", "long", "integer", "short", "byte", "double", "float",
   "date", "boolean", "binary", "object", "nested"]

/-- `getIndexMetadata` (src/migration.ts): the registry lookup, modelled by
passing the looked-up value (absent = `none`). -/
def getIndexMetadata (metadata : Option IndexMetadata) : Eff IndexMetadata :=
  match metadata with
  | none => throw { msg := "[typensearch] No metadata found for model" }
  | some m => pure m

/-- The error thrown by `executeMigration`'s type-validation loop. -/
def invalidTypeErr (field ty : String) : ErrVal :=
  { msg := "[typensearch] Invalid field type \"" ++ ty ++ "\" for field \""
      ++ field ++ "\"" }

/-- The type-validation loop of `executeMigration`: iterate the declared
fields in insertion order and throw on the first unsupported type. -/
def validateTypes : Mapping → Eff Unit
  | [] => pure ()
  | (field, options) :: rest =>
    if !(validTypes.contains options.type) then
      throw (invalidTypeErr field options.type)
    else
      validateTypes rest

/-- The temporary-index mapping built by `executeMigration` when a reindex
is required: every declared field flattened to `\x7b type: options.type \x7d`. -/
def flattenSchema (props : Mapping) : Mapping :=
  props.map fun p => (p.1, { type := p.2.type })

/-- JavaScript `a || b` for an optional string (`""` is falsy). -/
def jsOr (a : Option String) (b : String) : String :=
  match a with
  | some t => if t = "" then b else t
  | none => b

/-- The apply step of `executeMigration` (src/migration.ts): for a reindex
plan, create the temporary index, copy the data, swap the `"current"` alias
in one request, delete the original index and alias its name to the
temporary index; otherwise issue one put-mapping call adding the added
fields with their simple type. -/
def applyMigration (metadata : IndexMetadata) (indexName : String)
    (plan : MigrationPlan) (options : MigrationOptions) (migrationId : String) :
    Eff Unit :=
  if plan.requiresReindex then do
    let tempIndex := indexName ++ "_new_" ++ migrationId
    let _ ← call (ClusterOp.createIndex tempIndex (flattenSchema metadata.properties))
    let _ ← call (ClusterOp.reindexOp indexName tempIndex
      (options.waitForCompletion.getD true) (jsOr options.timeout "1h"))
    let _ ← call (ClusterOp.updateAliases
      [AliasAction.removeAlias indexName "current",
       AliasAction.addAlias tempIndex "current"])
    let _ ← call (ClusterOp.deleteIndex indexName)
    let _ ← call (ClusterOp.putAlias tempIndex indexName)
    pure ()
  else do
    let _ ← call (ClusterOp.putMapping indexName
      (plan.addedFields.map fun field => (field, (getF metadata.properties field).type)))
    pure ()

/-- The failure history entry built in `executeMigration`'s catch block. -/
def failureResult (plan : MigrationPlan) (migrationId : String) (now elapsed : Nat)
    (backupIndex : Option String) (error : ErrVal) : MigrationResult :=
  { success := false, duration := elapsed, migrationId, timestamp := now,
    plan, error := some error.msg, backupIndex }

/-- The catch block of `executeMigration` (src/migration.ts lines 268-304):
record a failure history entry, then, when a backup index had been created,
attempt one best-effort restore from it (its own failure only logged), and
re-throw the original error. -/
def handleFailure (plan : MigrationPlan) (migrationId : String) (now elapsed : Nat)
    (backupIndex : Option String) (error : ErrVal) : Eff MigrationResult := do
  saveMigrationHistory (failureResult plan migrationId now elapsed backupIndex error)
  match backupIndex with
  | some b =>
    tryCatch
      (do
        let _ ← call (ClusterOp.reindexOp b plan.indexName true "1h")
        pure ())
      (fun rollbackError => do
        emit (ClusterOp.logError
          ("Failed to rollback migration: " ++ rollbackError.msg))
        pure ())
  | none => pure ()
  throw error

/-- The part of `executeMigration`'s try block up to and including the
optional backup step: registry lookup, type validation, and backup
creation when requested. -/
def migrationSetup (metadata? : Option IndexMetadata) (options : MigrationOptions)
    (migrationId : String) : Eff (IndexMetadata × String × Option String) := do
  let metadata ← getIndexMetadata metadata?
  let indexName := metadata.name.getD ""
  validateTypes metadata.properties
  let backupIndex ←
    if options.backup then do
      let b ← createBackup indexName migrationId
      pure (some b)
    else
      pure (none : Option String)
  pure (metadata, indexName, backupIndex)

/-- The rest of `executeMigration`'s try block: apply the plan, build the
success result and record it in history. -/
def applyAndRecord (metadata : IndexMetadata) (indexName : String)
    (plan : MigrationPlan) (options : MigrationOptions) (migrationId : String)
    (now elapsed : Nat) (backupIndex : Option String) : Eff MigrationResult := do
  applyMigration metadata indexName plan options migrationId
  let result : MigrationResult :=
    { success := true, duration := elapsed, migrationId, timestamp := now,
      plan, backupIndex }
  saveMigrationHistory result
  pure result

/-- `executeMigration` (src/migration.ts).  The source's single try/catch
with the mutable `backupIndex` local becomes two reified phases: the catch
handler receives `none` when the failure precedes completion of the backup
step (exactly when the source's `backupIndex` local is still undefined), and
the created backup index name afterwards. -/
def executeMigration (metadata? : Option IndexMetadata) (plan : MigrationPlan)
    (options : MigrationOptions) (migrationId : String) (now elapsed : Nat) :
    Eff MigrationResult := do
  let setup ← toExcept (migrationSetup metadata? options migrationId)
  match setup with
  | Except.error e => handleFailure plan migrationId now elapsed none e
  | Except.ok (metadata, indexName, backupIndex) =>
    let outcome ← toExcept
      (applyAndRecord metadata indexName plan options migrationId now elapsed backupIndex)
    match outcome with
    | Except.error e => handleFailure plan migrationId now elapsed backupIndex e
    | Except.ok result => pure result

/-- `rollbackMigration` (src/migration.ts): precondition checks in source
order (not found, then no backup, then already rolled back), then delete the
current index if present, restore from the backup, delete the backup, and
mark the history entry; a failing restore is recorded and re-thrown. -/
def rollbackMigration (migrationId : String) (now elapsed : Nat) :
    Eff MigrationResult := do
  let history ← getMigrationHistory
  match history.find? (fun m => m.migrationId == migrationId) with
  | none =>
    throw { msg := "[typensearch] Migration " ++ migrationId ++ " not found" }
  | some migration =>
    match migration.backupIndex with
    | none =>
      throw { msg := "[typensearch] No backup found for migration " ++ migrationId }
    | some backupIndex =>
      if migration.rolledBack.isSome then
        throw { msg := "[typensearch] Migration " ++ migrationId
          ++ " has already been rolled back" }
      else do
        let indexName := migration.plan.indexName
        let outcome ← toExcept (do
          let ex ← call (ClusterOp.indexExists indexName)
          if respToBool ex then do
            let _ ← call (ClusterOp.deleteIndex indexName)
            pure ()
          else
            pure ()
          let _ ← call (ClusterOp.reindexOp backupIndex indexName true "1h")
          let _ ← call (ClusterOp.deleteIndex backupIndex)
          let result : MigrationResult :=
            { success := true, duration := elapsed, migrationId,
              timestamp := now, plan := migration.plan }
          updateMigrationHistory migrationId
            { timestamp := now, success := true }
          pure result)
        match outcome with
        | Except.ok result => pure result
        | Except.error e => do
          updateMigrationHistory migrationId
            { timestamp := now, success := false, errors := [e] }
          throw e

/-- `Model.planMigration` (src/model.ts): registry lookup, live-mapping
fetch, then the pure diff. -/
def planMigration (metadata? : Option IndexMetadata) : Eff MigrationPlan :=
  match metadata? with
  | none => throw { msg := "[typensearch] No metadata found for model" }
  | some metadata => do
    let currentMapping ← getCurrentMapping (metadata.name.getD "")
    pure (compareSchemas (metadata.name.getD "") currentMapping metadata)

/-- `Model.migrate` (src/model.ts): require an initialised client, plan, and
either return the immediate dry-run result or execute the plan. -/
def migrate (clientInitialized : Bool) (metadata? : Option IndexMetadata)
    (options : Option MigrationOptions) (migrationId : String) (now elapsed : Nat) :
    Eff MigrationResult :=
  if !clientInitialized then
    throw { msg := "[typensearch] You have to call `initialize` method first" }
  else do
    let plan ← planMigration metadata?
    if (options.map (·.dryRun)).getD false then
      pure { success := true, duration := 0, migrationId := "dry-run",
             timestamp := now, plan }
    else
      executeMigration metadata? plan (options.getD {}) migrationId now elapsed

/-- The fresh effect state in which every public entry point starts: no call
issued, empty trace. -/
def st0 : EffSt := { k := 0, trace := [] }

/-- A cluster behaviour on which every issued call succeeds. -/
def allOk (beh : Beh) : Prop := ∀ n, ∃ d, beh n = Except.ok d

/-- Calls that create, delete or modify cluster state (index bodies and
documents included); the read-only calls and console logging are not
mutations. -/
def isMutation : ClusterOp → Bool
  | ClusterOp.getMapping _ => false
  | ClusterOp.searchIndex _ => false
  | ClusterOp.indexExists _ => false
  | ClusterOp.logError _ => false
  | _ => true

/-- Mutating calls on the data path: every mutation except writes that only
touch the reserved migration-history index. -/
def isDataMutation : ClusterOp → Bool
  | ClusterOp.createIndex i _ => i != MIGRATION_INDEX
  | ClusterOp.reindexOp _ _ _ _ => true
  | ClusterOp.updateAliases _ => true
  | ClusterOp.deleteIndex _ => true
  | ClusterOp.putAlias _ _ => true
  | ClusterOp.putMapping _ _ => true
  | ClusterOp.indexDoc i _ _ => i != MIGRATION_INDEX
  | ClusterOp.updateDoc i _ _ => i != MIGRATION_INDEX
  | _ => false

/-- Modelled from the spec: the temporary-index mapping of §4.3 step 1 as
the spec describes it - each top-level field flattened to its type, and for
object/nested fields the nested sub-property structure set recursively in
the created mapping.  (To be compared with `flattenSchema`, the mapping the
code actually builds.) -/
def specTempIndexMapping (props : Mapping) : Mapping :=
  props.map fun p => (p.1, { type := p.2.type, propertiesJson := p.2.propertiesJson })

/-- Modelled from the spec (engine semantics, not repository code): the
cluster's index-document call with an explicit id is an upsert - it replaces
an existing document with that id and otherwise appends a new document. -/
def upsertDoc (store : List (String × MigrationHistory)) (id : String)
    (body : MigrationHistory) : List (String × MigrationHistory) :=
  if store.any (fun p => p.1 == id) then
    store.map fun p => if p.1 == id then (id, body) else p
  else
    store ++ [(id, body)]

/-- Replay the history-index document writes of a trace against a document
store, using the upsert semantics of `upsertDoc`. -/
def applyIndexOps (store : List (String × MigrationHistory)) :
    List ClusterOp → List (String × MigrationHistory)
  | [] => store
  | ClusterOp.indexDoc i id body :: rest =>
    applyIndexOps (if i = MIGRATION_INDEX then upsertDoc store id body else store) rest
  | _ :: rest => applyIndexOps store rest

/-
Theorems.  The first group is shared plumbing: pointwise application lemmas
for the effect monad, used to evaluate the embedded functions symbolically.
-/

theorem pure_app {α : Type} (a : α) (beh : Beh) (s : EffSt) :
    (pure a : Eff α) beh s = (s, Except.ok a) := rfl

theorem bind_app {α β : Type} (x : Eff α) (f : α → Eff β) (beh : Beh) (s : EffSt) :
    (x >>= f) beh s =
      match x beh s with
      | (s', Except.ok a) => f a beh s'
      | (s', Except.error e) => (s', Except.error e) := rfl

theorem throw_app {α : Type} (e : ErrVal) (beh : Beh) (s : EffSt) :
    (throw e : Eff α) beh s = (s, Except.error e) := rfl

theorem tryCatch_app {α : Type} (x : Eff α) (h : ErrVal → Eff α) (beh : Beh) (s : EffSt) :
    tryCatch x h beh s =
      match x beh s with
      | (s', Except.ok a) => (s', Except.ok a)
      | (s', Except.error e) => h e beh s' := rfl

theorem call_app (op : ClusterOp) (beh : Beh) (s : EffSt) :
    call op beh s =
      ({ k := s.k + 1, trace := s.trace ++ [op] },
        match beh s.k with
        | Except.ok d => Except.ok d
        | Except.error e => Except.error e) := rfl

theorem toExcept_app {α : Type} (x : Eff α) (beh : Beh) (s : EffSt) :
    toExcept x beh s = ((x beh s).1, Except.ok (x beh s).2) := by
  unfold toExcept
  rcases x beh s with ⟨s', r⟩
  rfl

/-- C1: for every live mapping and declared schema, the plan computed by the
Schema Differ satisfies `requiresReindex = true` exactly when
`modifiedFields` or `deletedFields` is non-empty; in particular a plan whose
only changes are added fields (modified and deleted both empty) has
`requiresReindex = false`. -/
theorem requiresReindex_characterisation (i : String) (c : Mapping) (m : IndexMetadata) :
    ((compareSchemas i c m).requiresReindex = true ↔
      (compareSchemas i c m).modifiedFields ≠ [] ∨
        (compareSchemas i c m).deletedFields ≠ []) ∧
    ((compareSchemas i c m).modifiedFields = [] ∧
        (compareSchemas i c m).deletedFields = [] →
      (compareSchemas i c m).requiresReindex = false) := by
  constructor
  · simp only [compareSchemas, Bool.or_eq_true, decide_eq_true_eq,
      List.length_pos, ne_eq]
  · intro h
    have h1 := h.1
    have h2 := h.2
    simp only [compareSchemas] at h1 h2 ⊢
    rw [h1, h2]
    simp

/-- Witness for C1 at a concrete live mapping and schema. -/
theorem requiresReindex_characterisation_witness :
    ((compareSchemas "idx" [("a", { type := "text" })]
        { name := some "idx", properties := [("a", { type := "text" })] }).modifiedFields = [] ∧
      (compareSchemas "idx" [("a", { type := "text" })]
        { name := some "idx", properties := [("a", { type := "text" })] }).deletedFields = []) ∧
    (compareSchemas "idx" [("a", { type := "text" })]
        { name := some "idx", properties := [("a", { type := "text" })] }).requiresReindex = false :=
  ⟨⟨by decide, by decide⟩,
    (requiresReindex_characterisation "idx" [("a", { type := "text" })]
      { name := some "idx", properties := [("a", { type := "text" })] }).2
      ⟨by decide, by decide⟩⟩

/-- C10: when the get-mapping call fails (for any reason, a missing index
included), `getCurrentMapping` swallows the error and returns the empty
mapping, so `planMigration` succeeds with a plan listing every declared
field in `addedFields`, empty `modifiedFields` and `deletedFields`, and
`requiresReindex = false`; the whole run is indistinguishable from one
against an index whose mapping is empty. -/
theorem planMigration_swallows_mapping_errors (m : IndexMetadata) (beh beh' : Beh)
    (e : ErrVal) (hb : beh 0 = Except.error e)
    (hb' : beh' 0 = Except.ok (RespData.mapping [])) :
    getCurrentMapping (m.name.getD "") beh st0 =
      ({ k := 1, trace := [ClusterOp.getMapping (m.name.getD "")] }, Except.ok []) ∧
    planMigration (some m) beh st0 =
      ({ k := 1, trace := [ClusterOp.getMapping (m.name.getD "")] },
        Except.ok (compareSchemas (m.name.getD "") [] m)) ∧
    (compareSchemas (m.name.getD "") [] m).addedFields = keys m.properties ∧
    (compareSchemas (m.name.getD "") [] m).modifiedFields = [] ∧
    (compareSchemas (m.name.getD "") [] m).deletedFields = [] ∧
    (compareSchemas (m.name.getD "") [] m).requiresReindex = false ∧
    planMigration (some m) beh st0 = planMigration (some m) beh' st0 := by
  have hget : getCurrentMapping (m.name.getD "") beh st0 =
      ({ k := 1, trace := [ClusterOp.getMapping (m.name.getD "")] }, Except.ok []) := by
    simp [getCurrentMapping, tryCatch_app, bind_app, call_app, pure_app, st0, hb]
  have hget' : getCurrentMapping (m.name.getD "") beh' st0 =
      ({ k := 1, trace := [ClusterOp.getMapping (m.name.getD "")] }, Except.ok []) := by
    simp [getCurrentMapping, tryCatch_app, bind_app, call_app, pure_app, st0, hb',
      respToMapping]
  refine ⟨hget, ?_, ?_, ?_, ?_, ?_, ?_⟩
  · simp [planMigration, bind_app, hget, pure_app]
  · simp [compareSchemas, keys, List.filter_true]
  · simp [compareSchemas, keys]
  · simp [compareSchemas, keys]
  · simp [compareSchemas, keys]
  · simp [planMigration, bind_app, hget, hget', pure_app]

/-- Witness for C10 at a concrete schema, a failing behaviour and an
empty-mapping behaviour. -/
theorem planMigration_swallows_mapping_errors_witness :
    (compareSchemas
        (({ name := some "w",
            properties := [("a", { type := "text" })] : IndexMetadata }).name.getD "")
        [] { name := some "w", properties := [("a", { type := "text" })] }).addedFields =
      keys [("a", { type := "text" })] ∧
    (compareSchemas
        (({ name := some "w",
            properties := [("a", { type := "text" })] : IndexMetadata }).name.getD "")
        [] { name := some "w", properties := [("a", { type := "text" })] }).requiresReindex =
      false :=
  have h := planMigration_swallows_mapping_errors
    { name := some "w", properties := [("a", { type := "text" })] }
    (fun _ => Except.error { statusCode := some 500, msg := "connection refused" })
    (fun _ => Except.ok (RespData.mapping []))
    { statusCode := some 500, msg := "connection refused" } rfl rfl
  ⟨h.2.2.1, h.2.2.2.2.2.1⟩

theorem lookup_map_self (g : String → FieldChange) (l : List String) (f : String)
    (hf : f ∈ l) : (l.map fun x => (x, g x)).lookup f = some (g f) := by
  induction l with
  | nil => cases hf
  | cons a t ih =>
    simp only [List.map_cons, List.lookup]
    by_cases h : f = a
    · subst h
      simp
    · have hb : (f == a) = false := beq_false_of_ne h
      rw [hb]
      exact ih (by
        rcases List.mem_cons.mp hf with h' | h'
        · exact absurd h' h
        · exact h')

theorem lookup_map_append (g : String → FieldChange) (l : List String)
    (rest : List (String × FieldChange)) (f : String) (hf : f ∈ l) :
    ((l.map fun x => (x, g x)) ++ rest).lookup f = some (g f) := by
  induction l with
  | nil => cases hf
  | cons a t ih =>
    simp only [List.map_cons, List.cons_append, List.lookup]
    by_cases h : f = a
    · subst h
      simp
    · have hb : (f == a) = false := beq_false_of_ne h
      rw [hb]
      exact ih (by
        rcases List.mem_cons.mp hf with h' | h'
        · exact absurd h' h
        · exact h')

theorem lookup_append_of_keys_ne (l₁ l₂ : List (String × FieldChange)) (f : String)
    (h : ∀ p ∈ l₁, p.1 ≠ f) : (l₁ ++ l₂).lookup f = l₂.lookup f := by
  induction l₁ with
  | nil => rfl
  | cons a t ih =>
    obtain ⟨k, v⟩ := a
    have hk : k ≠ f := h (k, v) (List.mem_cons_self (k, v) t)
    have hb : (f == k) = false := beq_false_of_ne (Ne.symm hk)
    simp only [List.cons_append, List.lookup, hb]
    exact ih fun p hp => h p (List.mem_cons_of_mem (k, v) hp)

theorem mem_addedFields (i : String) (c : Mapping) (m : IndexMetadata) (f : String) :
    f ∈ (compareSchemas i c m).addedFields ↔
      f ∈ keys m.properties ∧ f ∉ keys c := by
  simp [compareSchemas, List.mem_filter]

theorem mem_deletedFields (i : String) (c : Mapping) (m : IndexMetadata) (f : String) :
    f ∈ (compareSchemas i c m).deletedFields ↔
      f ∈ keys c ∧ f ∉ keys m.properties := by
  simp [compareSchemas, List.mem_filter]

theorem mem_modifiedFields (i : String) (c : Mapping) (m : IndexMetadata) (f : String) :
    f ∈ (compareSchemas i c m).modifiedFields ↔
      f ∈ keys m.properties ∧ f ∈ keys c ∧
        ((getF c f).type ≠ (stripMeta (getF m.properties f)).type ∨
         (getF c f).fieldsJson ≠ (stripMeta (getF m.properties f)).fieldsJson ∨
         (getF c f).propertiesJson ≠ (stripMeta (getF m.properties f)).propertiesJson) := by
  simp only [compareSchemas, List.mem_filter]
  constructor
  · rintro ⟨hmem, hpred⟩
    by_cases hcur : f ∈ keys c
    · refine ⟨hmem, hcur, ?_⟩
      rw [if_neg (by simp [hcur])] at hpred
      simpa [Bool.or_eq_true, bne_iff_ne, or_assoc] using hpred
    · rw [if_pos (by simp [hcur])] at hpred
      cases hpred
  · rintro ⟨hmem, hcur, hdiff⟩
    refine ⟨hmem, ?_⟩
    rw [if_neg (by simp [hcur])]
    simpa [Bool.or_eq_true, bne_iff_ne, or_assoc] using hdiff

theorem map_fst_pairs (g : String → FieldChange) (l : List String) :
    (l.map fun x => (x, g x)).map Prod.fst = l := by
  induction l with
  | nil => rfl
  | cons a t ih => simp [ih]

/-- C5: the Differ is a pure function of its inputs and computes:
`addedFields` = declared field names not in the live mapping,
`deletedFields` = live field names not declared, `modifiedFields` = shared
field names whose type differs or whose multi-field / nested-property
sub-objects differ (compared, as the source does, through their
serialisations, on which equality is deep equality of the sub-objects); and
`details` has exactly one entry per listed field: kind "added" with
`newType` set for added fields, kind "modified" with `oldType` and `newType`
set for modified fields, and kind "deleted" with `oldType` set for deleted
fields.  The key-uniqueness hypotheses state that the two inputs are images
of JavaScript objects, whose keys are unique. -/
theorem compareSchemas_differ_spec (i : String) (c : Mapping) (m : IndexMetadata)
    (hc : (keys c).Nodup) (hm : (keys m.properties).Nodup) :
    (∀ f, f ∈ (compareSchemas i c m).addedFields ↔
      f ∈ keys m.properties ∧ f ∉ keys c) ∧
    (∀ f, f ∈ (compareSchemas i c m).deletedFields ↔
      f ∈ keys c ∧ f ∉ keys m.properties) ∧
    (∀ f, f ∈ (compareSchemas i c m).modifiedFields ↔
      f ∈ keys m.properties ∧ f ∈ keys c ∧
        ((getF c f).type ≠ (stripMeta (getF m.properties f)).type ∨
         (getF c f).fieldsJson ≠ (stripMeta (getF m.properties f)).fieldsJson ∨
         (getF c f).propertiesJson ≠ (stripMeta (getF m.properties f)).propertiesJson)) ∧
    ((compareSchemas i c m).details.map Prod.fst =
      (compareSchemas i c m).addedFields ++ (compareSchemas i c m).modifiedFields
        ++ (compareSchemas i c m).deletedFields) ∧
    ((compareSchemas i c m).details.map Prod.fst).Nodup ∧
    (∀ f ∈ (compareSchemas i c m).addedFields,
      (compareSchemas i c m).details.lookup f =
        some { type := "added",
               newType := some (stripMeta (getF m.properties f)).type,
               newOptions := some (stripMeta (getF m.properties f)) }) ∧
    (∀ f ∈ (compareSchemas i c m).modifiedFields,
      (compareSchemas i c m).details.lookup f =
        some { type := "modified",
               oldType := some (getF c f).type,
               newType := some (stripMeta (getF m.properties f)).type,
               oldOptions := some (getF c f),
               newOptions := some (stripMeta (getF m.properties f)) }) ∧
    (∀ f ∈ (compareSchemas i c m).deletedFields,
      (compareSchemas i c m).details.lookup f =
        some { type := "deleted",
               oldType := some (getF c f).type,
               oldOptions := some (getF c f) }) := by
  have hA := mem_addedFields i c m
  have hD := mem_deletedFields i c m
  have hM := mem_modifiedFields i c m
  have haddN : (compareSchemas i c m).addedFields.Nodup := by
    simpa [compareSchemas] using List.Nodup.filter _ hm
  have hmodN : (compareSchemas i c m).modifiedFields.Nodup := by
    simpa [compareSchemas] using List.Nodup.filter _ hm
  have hdelN : (compareSchemas i c m).deletedFields.Nodup := by
    simpa [compareSchemas] using List.Nodup.filter _ hc
  have hAM : ∀ f, f ∈ (compareSchemas i c m).addedFields →
      f ∉ (compareSchemas i c m).modifiedFields := by
    intro f hf hf'
    exact ((hA f).mp hf).2 ((hM f).mp hf').2.1
  have hAD : ∀ f, f ∈ (compareSchemas i c m).addedFields →
      f ∉ (compareSchemas i c m).deletedFields := by
    intro f hf hf'
    exact ((hA f).mp hf).2 ((hD f).mp hf').1
  have hMD : ∀ f, f ∈ (compareSchemas i c m).modifiedFields →
      f ∉ (compareSchemas i c m).deletedFields := by
    intro f hf hf'
    exact ((hD f).mp hf').2 ((hM f).mp hf).1
  have hdetails : (compareSchemas i c m).details =
      ((compareSchemas i c m).addedFields.map fun f =>
        (f, ({ type := "added",
               newType := some (stripMeta (getF m.properties f)).type,
               newOptions := some (stripMeta (getF m.properties f)) } : FieldChange)))
      ++ ((compareSchemas i c m).modifiedFields.map fun f =>
        (f, ({ type := "modified",
               oldType := some (getF c f).type,
               newType := some (stripMeta (getF m.properties f)).type,
               oldOptions := some (getF c f),
               newOptions := some (stripMeta (getF m.properties f)) } : FieldChange)))
      ++ ((compareSchemas i c m).deletedFields.map fun f =>
        (f, ({ type := "deleted",
               oldType := some (getF c f).type,
               oldOptions := some (getF c f) } : FieldChange))) := by
    simp [compareSchemas]
  have hkeys : (compareSchemas i c m).details.map Prod.fst =
      (compareSchemas i c m).addedFields ++ (compareSchemas i c m).modifiedFields
        ++ (compareSchemas i c m).deletedFields := by
    rw [hdetails, List.map_append, List.map_append, map_fst_pairs, map_fst_pairs,
      map_fst_pairs]
  refine ⟨hA, hD, hM, hkeys, ?_, ?_, ?_, ?_⟩
  · rw [hkeys]
    refine (List.nodup_append.mpr ⟨List.nodup_append.mpr ⟨haddN, hmodN, ?_⟩, hdelN, ?_⟩)
    · intro f hf hf'
      exact hAM f hf hf'
    · intro f hf hf'
      rcases List.mem_append.mp hf with h | h
      · exact hAD f h hf'
      · exact hMD f h hf'
  · intro f hf
    rw [hdetails, List.append_assoc]
    exact lookup_map_append _ _ _ f hf
  · intro f hf
    rw [hdetails, List.append_assoc]
    rw [lookup_append_of_keys_ne _ _ f ?_]
    · exact lookup_map_append _ _ _ f hf
    · intro p hp
      rcases List.mem_map.mp hp with ⟨x, hx, rfl⟩
      intro hxf
      have hxf' : x = f := hxf
      subst hxf'
      exact hAM x hx hf
  · intro f hf
    rw [hdetails, List.append_assoc]
    rw [lookup_append_of_keys_ne _ _ f ?_]
    · rw [lookup_append_of_keys_ne _ _ f ?_]
      · exact lookup_map_self _ _ f hf
      · intro p hp
        rcases List.mem_map.mp hp with ⟨x, hx, rfl⟩
        intro hxf
        have hxf' : x = f := hxf
        subst hxf'
        exact hMD x hx hf
    · intro p hp
      rcases List.mem_map.mp hp with ⟨x, hx, rfl⟩
      intro hxf
      have hxf' : x = f := hxf
      subst hxf'
      exact hAD x hx hf

/-- Witness for C5 on concrete inputs with unique keys: live mapping
`\x7bname: keyword, age: integer\x7d` against a schema declaring
`\x7bname: keyword, age: long\x7d`. -/
theorem compareSchemas_differ_spec_witness :
    ("age" ∈ (compareSchemas "idx"
        [("name", { type := "keyword" }), ("age", { type := "integer" })]
        { name := some "idx",
          properties := [("name", { type := "keyword" }), ("age", { type := "long" })] }).modifiedFields ↔
      "age" ∈ keys [("name", { type := "keyword" }), ("age", { type := "long" })] ∧
      "age" ∈ keys [("name", { type := "keyword" }), ("age", { type := "integer" })] ∧
        ((getF [("name", { type := "keyword" }), ("age", { type := "integer" })] "age").type ≠
            (stripMeta (getF [("name", { type := "keyword" }), ("age", { type := "long" })] "age")).type ∨
         (getF [("name", { type := "keyword" }), ("age", { type := "integer" })] "age").fieldsJson ≠
            (stripMeta (getF [("name", { type := "keyword" }), ("age", { type := "long" })] "age")).fieldsJson ∨
         (getF [("name", { type := "keyword" }), ("age", { type := "integer" })] "age").propertiesJson ≠
            (stripMeta (getF [("name", { type := "keyword" }), ("age", { type := "long" })] "age")).propertiesJson)) :=
  ((compareSchemas_differ_spec "idx"
      [("name", { type := "keyword" }), ("age", { type := "integer" })]
      { name := some "idx",
        properties := [("name", { type := "keyword" }), ("age", { type := "long" })] }
      (by decide) (by decide)).2.2.1) "age"

/-- C4: with `dryRun = true`, `migrate` returns success with
`migrationId = "dry-run"` and duration 0, and the only cluster interaction
of the whole run - for every cluster behaviour - is the read-only mapping
fetch used for planning: no backup, reindex, index create/delete, mapping
update or history write is issued. -/
theorem migrate_dryRun (m : IndexMetadata) (o : MigrationOptions) (ho : o.dryRun = true)
    (migrationId : String) (now elapsed : Nat) (beh : Beh) :
    ∃ plan,
      migrate true (some m) (some o) migrationId now elapsed beh st0 =
        ({ k := 1, trace := [ClusterOp.getMapping (m.name.getD "")] },
          Except.ok { success := true, duration := 0, migrationId := "dry-run",
                      timestamp := now, plan := plan }) ∧
      ∀ op ∈ [ClusterOp.getMapping (m.name.getD "")], isMutation op = false := by
  cases hb : beh 0 with
  | ok d =>
    refine ⟨compareSchemas (m.name.getD "") (respToMapping d) m, ?_, ?_⟩
    · simp [migrate, planMigration, getCurrentMapping, tryCatch_app, bind_app,
        call_app, pure_app, st0, hb, ho]
    · simp [isMutation]
  | error e =>
    refine ⟨compareSchemas (m.name.getD "") [] m, ?_, ?_⟩
    · simp [migrate, planMigration, getCurrentMapping, tryCatch_app, bind_app,
        call_app, pure_app, st0, hb, ho]
    · simp [isMutation]

/-- Witness for C4 at a concrete model, options and behaviour. -/
theorem migrate_dryRun_witness :
    ∃ plan,
      migrate true (some { name := some "idx", properties := [("a", { type := "text" })] })
          (some { dryRun := true }) "u1" 3 9
          (fun _ => Except.ok (RespData.mapping [])) st0 =
        ({ k := 1, trace := [ClusterOp.getMapping
            (({ name := some "idx",
                properties := [("a", { type := "text" })] : IndexMetadata }).name.getD "")] },
          Except.ok { success := true, duration := 0, migrationId := "dry-run",
                      timestamp := 3, plan := plan }) ∧
      ∀ op ∈ [ClusterOp.getMapping
          (({ name := some "idx",
              properties := [("a", { type := "text" })] : IndexMetadata }).name.getD "")],
        isMutation op = false :=
  migrate_dryRun { name := some "idx", properties := [("a", { type := "text" })] }
    { dryRun := true } rfl "u1" 3 9 (fun _ => Except.ok (RespData.mapping []))

/-- C2 (amended): `rollback` performs its precondition checks in the
source's order - unknown id first (failing with a not-found error whose
message embeds the id), then a missing `backupIndex` (no-backup error), and
only then an existing `rolledBack` sub-object (already-rolled-back error) -
and in every one of these failure cases the only cluster call issued is the
read-only history search, so no index is created, deleted or modified. -/
theorem rollback_precondition_checks (migrationId : String) (now elapsed : Nat)
    (hs : List MigrationHistory) (beh : Beh)
    (hb : beh 0 = Except.ok (RespData.hits hs)) :
    (hs.find? (fun m => m.migrationId == migrationId) = none →
      rollbackMigration migrationId now elapsed beh st0 =
        ({ k := 1, trace := [ClusterOp.searchIndex MIGRATION_INDEX] },
          Except.error
            { msg := "[typensearch] Migration " ++ migrationId ++ " not found" })) ∧
    (∀ entry, hs.find? (fun m => m.migrationId == migrationId) = some entry →
      entry.backupIndex = none →
      rollbackMigration migrationId now elapsed beh st0 =
        ({ k := 1, trace := [ClusterOp.searchIndex MIGRATION_INDEX] },
          Except.error
            { msg := "[typensearch] No backup found for migration " ++ migrationId })) ∧
    (∀ entry b, hs.find? (fun m => m.migrationId == migrationId) = some entry →
      entry.backupIndex = some b → entry.rolledBack.isSome = true →
      rollbackMigration migrationId now elapsed beh st0 =
        ({ k := 1, trace := [ClusterOp.searchIndex MIGRATION_INDEX] },
          Except.error
            { msg := "[typensearch] Migration " ++ migrationId
                ++ " has already been rolled back" })) ∧
    isMutation (ClusterOp.searchIndex MIGRATION_INDEX) = false := by
  refine ⟨?_, ?_, ?_, rfl⟩
  · intro hfind
    simp [rollbackMigration, getMigrationHistory, tryCatch_app, bind_app, call_app,
      pure_app, throw_app, st0, hb, respToHits, hfind]
  · intro entry hfind hback
    simp [rollbackMigration, getMigrationHistory, tryCatch_app, bind_app, call_app,
      pure_app, throw_app, st0, hb, respToHits, hfind, hback]
  · intro entry b hfind hback hrb
    simp [rollbackMigration, getMigrationHistory, tryCatch_app, bind_app, call_app,
      pure_app, throw_app, st0, hb, respToHits, hfind, hback, hrb]

/-- Witness for the amended C2: a concrete unknown id fails with the
not-found error and an untouched cluster. -/
theorem rollback_precondition_checks_witness :
    rollbackMigration "nope" 0 0
        (fun _ => Except.ok (RespData.hits [])) st0 =
      ({ k := 1, trace := [ClusterOp.searchIndex MIGRATION_INDEX] },
        Except.error { msg := "[typensearch] Migration " ++ "nope" ++ " not found" }) :=
  (rollback_precondition_checks "nope" 0 0 []
    (fun _ => Except.ok (RespData.hits [])) rfl).1 rfl

/-- C2 counterexample: for a history entry whose `rolledBack` sub-object is
already set but which has no recorded `backupIndex`, the claim's check order
demands the already-rolled-back error, but the code raises the no-backup
error: the no-backup check precedes the rolled-back check. -/
theorem rollback_check_order_counterexample :
    (rollbackMigration "m1" 0 0
        (fun _ => Except.ok (RespData.hits
          [{ success := true, duration := 1, migrationId := "m1", timestamp := 0,
             plan := { indexName := "idx", addedFields := [], modifiedFields := [],
                       deletedFields := [], requiresReindex := false,
                       estimatedDuration := "1-2 minutes", details := [] },
             rolledBack := some { timestamp := 0, success := true } }]))
        st0).2 =
      Except.error { msg := "[typensearch] No backup found for migration m1" } ∧
    ({ msg := "[typensearch] No backup found for migration m1" } : ErrVal) ≠
      { msg := "[typensearch] Migration m1 has already been rolled back" } := by
  constructor
  · rfl
  · decide

theorem validateTypes_ok (props : Mapping)
    (h : ∀ p ∈ props, validTypes.contains p.2.type = true) :
    ∀ beh s, validateTypes props beh s = (s, Except.ok ()) := by
  induction props with
  | nil => intro beh s; rfl
  | cons a t ih =>
    intro beh s
    obtain ⟨f, o⟩ := a
    have ho : validTypes.contains o.type = true := h (f, o) (List.mem_cons_self _ _)
    simp only [validateTypes, ho, Bool.not_true, Bool.false_eq_true, if_false]
    exact ih (fun p hp => h p (List.mem_cons_of_mem _ hp)) beh s

theorem validateTypes_firstInvalid (pre : Mapping) (f : String) (fo : FieldOptions)
    (rest : Mapping) (hpre : ∀ p ∈ pre, validTypes.contains p.2.type = true)
    (hbad : validTypes.contains fo.type = false) :
    ∀ beh s, validateTypes (pre ++ (f, fo) :: rest) beh s =
      (s, Except.error (invalidTypeErr f fo.type)) := by
  induction pre with
  | nil =>
    intro beh s
    simp only [List.nil_append, validateTypes, hbad, Bool.not_false, if_true, throw_app]
  | cons a t ih =>
    intro beh s
    obtain ⟨g, o⟩ := a
    have ho : validTypes.contains o.type = true := hpre (g, o) (List.mem_cons_self _ _)
    simp only [List.cons_append, validateTypes, ho, Bool.not_true, Bool.false_eq_true,
      if_false]
    exact ih (fun p hp => hpre p (List.mem_cons_of_mem _ hp)) beh s

theorem getCurrentMapping_shape (i : String) (beh : Beh) (s : EffSt) :
    ∃ mp, getCurrentMapping i beh s =
      ({ k := s.k + 1, trace := s.trace ++ [ClusterOp.getMapping i] }, Except.ok mp) := by
  cases hb : beh s.k with
  | ok d =>
    exact ⟨respToMapping d, by simp [getCurrentMapping, tryCatch_app, bind_app,
      call_app, pure_app, hb]⟩
  | error e =>
    exact ⟨[], by simp [getCurrentMapping, tryCatch_app, bind_app, call_app,
      pure_app, hb]⟩

theorem createBackup_name (i mid : String) (beh : Beh) (s : EffSt) (v : String)
    (hv : (createBackup i mid beh s).2 = Except.ok v) :
    v = i ++ "_backup_" ++ mid := by
  obtain ⟨mp, hmp⟩ := getCurrentMapping_shape i beh s
  rcases hb1 : beh (s.k + 1) with e1 | d1
  · simp [createBackup, bind_app, call_app, pure_app, hmp, hb1] at hv
  · rcases hb2 : beh (s.k + 1 + 1) with e2 | d2
    · simp [createBackup, bind_app, call_app, pure_app, hmp, hb1, hb2] at hv
    · simp [createBackup, bind_app, call_app, pure_app, hmp, hb1, hb2] at hv
      exact hv.symm

/-- C7: with `requiresReindex = true` and every cluster call succeeding,
`executeMigration` (backup not requested) issues exactly, in order: create
temporary index, reindex original into it, one alias-update request with
both the remove-"current"-from-original and add-"current"-to-temporary
actions, delete the original index, alias the original name onto the
temporary index - followed by the success history write; with
`requiresReindex = false`, none of these occur and a single put-mapping
call adds only the added fields with their simple type. -/
theorem executeMigration_reindex_protocol (m : IndexMetadata) (plan : MigrationPlan)
    (o : MigrationOptions) (hbk : o.backup = false)
    (hvalid : ∀ p ∈ m.properties, validTypes.contains p.2.type = true)
    (migrationId : String) (now elapsed : Nat) (beh : Beh)
    (d0 d1 d2 d3 d4 d5 : RespData)
    (hb0 : beh 0 = Except.ok d0) (hb1 : beh 1 = Except.ok d1)
    (hb2 : beh 2 = Except.ok d2) (hb3 : beh 3 = Except.ok d3)
    (hb4 : beh 4 = Except.ok d4) (hb5 : beh 5 = Except.ok d5) :
    (plan.requiresReindex = true →
      executeMigration (some m) plan o migrationId now elapsed beh st0 =
        ({ k := 6, trace := [
            ClusterOp.createIndex ((m.name.getD "") ++ "_new_" ++ migrationId)
              (flattenSchema m.properties),
            ClusterOp.reindexOp (m.name.getD "")
              ((m.name.getD "") ++ "_new_" ++ migrationId)
              (o.waitForCompletion.getD true) (jsOr o.timeout "1h"),
            ClusterOp.updateAliases
              [AliasAction.removeAlias (m.name.getD "") "current",
               AliasAction.addAlias ((m.name.getD "") ++ "_new_" ++ migrationId)
                 "current"],
            ClusterOp.deleteIndex (m.name.getD ""),
            ClusterOp.putAlias ((m.name.getD "") ++ "_new_" ++ migrationId)
              (m.name.getD ""),
            ClusterOp.indexDoc MIGRATION_INDEX migrationId
              { success := true, duration := elapsed, migrationId := migrationId,
                timestamp := now, plan := plan }] },
          Except.ok { success := true, duration := elapsed,
                      migrationId := migrationId, timestamp := now,
                      plan := plan })) ∧
    (plan.requiresReindex = false →
      executeMigration (some m) plan o migrationId now elapsed beh st0 =
        ({ k := 2, trace := [
            ClusterOp.putMapping (m.name.getD "")
              (plan.addedFields.map fun field =>
                (field, (getF m.properties field).type)),
            ClusterOp.indexDoc MIGRATION_INDEX migrationId
              { success := true, duration := elapsed, migrationId := migrationId,
                timestamp := now, plan := plan }] },
          Except.ok { success := true, duration := elapsed,
                      migrationId := migrationId, timestamp := now,
                      plan := plan })) := by
  have hval := validateTypes_ok m.properties hvalid
  constructor
  · intro hre
    simp [executeMigration, migrationSetup, applyAndRecord, getIndexMetadata,
      applyMigration, saveMigrationHistory,
      toExcept_app, tryCatch_app, bind_app, call_app, pure_app, st0, hval, hbk, hre,
      hb0, hb1, hb2, hb3, hb4, hb5]
  · intro hre
    simp [executeMigration, migrationSetup, applyAndRecord, getIndexMetadata,
      applyMigration, saveMigrationHistory,
      toExcept_app, tryCatch_app, bind_app, call_app, pure_app, st0, hval, hbk, hre,
      hb0, hb1]

/-- Witness for C7 at a concrete model, plan and all-ok behaviour. -/
theorem executeMigration_reindex_protocol_witness :
    executeMigration
        (some { name := some "idx", properties := [("age", { type := "long" })] })
        { indexName := "idx", addedFields := [], modifiedFields := ["age"],
          deletedFields := [], requiresReindex := true,
          estimatedDuration := "5-10 minutes", details := [] }
        {} "m1" 0 0 (fun _ => Except.ok RespData.unit) st0 =
      ({ k := 6, trace := [
          ClusterOp.createIndex ("idx" ++ "_new_" ++ "m1")
            (flattenSchema [("age", { type := "long" })]),
          ClusterOp.reindexOp "idx" ("idx" ++ "_new_" ++ "m1") true (jsOr none "1h"),
          ClusterOp.updateAliases
            [AliasAction.removeAlias "idx" "current",
             AliasAction.addAlias ("idx" ++ "_new_" ++ "m1") "current"],
          ClusterOp.deleteIndex "idx",
          ClusterOp.putAlias ("idx" ++ "_new_" ++ "m1") "idx",
          ClusterOp.indexDoc MIGRATION_INDEX "m1"
            { success := true, duration := 0, migrationId := "m1", timestamp := 0,
              plan := { indexName := "idx", addedFields := [],
                        modifiedFields := ["age"], deletedFields := [],
                        requiresReindex := true,
                        estimatedDuration := "5-10 minutes", details := [] } }] },
        Except.ok { success := true, duration := 0, migrationId := "m1",
                    timestamp := 0,
                    plan := { indexName := "idx", addedFields := [],
                              modifiedFields := ["age"], deletedFields := [],
                              requiresReindex := true,
                              estimatedDuration := "5-10 minutes",
                              details := [] } }) := by
  have h := (executeMigration_reindex_protocol
    { name := some "idx", properties := [("age", { type := "long" })] }
    { indexName := "idx", addedFields := [], modifiedFields := ["age"],
      deletedFields := [], requiresReindex := true,
      estimatedDuration := "5-10 minutes", details := [] }
    {} rfl (by decide) "m1" 0 0 (fun _ => Except.ok RespData.unit)
    RespData.unit RespData.unit RespData.unit RespData.unit RespData.unit
    RespData.unit rfl rfl rfl rfl rfl rfl).1 rfl
  simpa using h

/-- C6 (amended): when a migration requires reindex, the temporary index
created in step 1 is named `indexName + "_new_" + migrationId` and its
mapping is built from the declared schema with each top-level field
flattened to `\x7b field: type \x7d` only; the nested sub-property structure of
object/nested fields is NOT set in the created mapping - it is dropped. -/
theorem executeMigration_temp_index_mapping (m : IndexMetadata) (plan : MigrationPlan)
    (o : MigrationOptions) (hbk : o.backup = false)
    (hvalid : ∀ p ∈ m.properties, validTypes.contains p.2.type = true)
    (migrationId : String) (now elapsed : Nat) (beh : Beh)
    (d0 d1 d2 d3 d4 d5 : RespData)
    (hb0 : beh 0 = Except.ok d0) (hb1 : beh 1 = Except.ok d1)
    (hb2 : beh 2 = Except.ok d2) (hb3 : beh 3 = Except.ok d3)
    (hb4 : beh 4 = Except.ok d4) (hb5 : beh 5 = Except.ok d5)
    (hre : plan.requiresReindex = true) :
    (executeMigration (some m) plan o migrationId now elapsed beh st0).1.trace.head? =
      some (ClusterOp.createIndex ((m.name.getD "") ++ "_new_" ++ migrationId)
        (flattenSchema m.properties)) ∧
    flattenSchema m.properties =
      m.properties.map (fun p => (p.1, { type := p.2.type })) ∧
    ∀ p ∈ flattenSchema m.properties,
      p.2.propertiesJson = none ∧ p.2.fieldsJson = none := by
  have hval := validateTypes_ok m.properties hvalid
  refine ⟨?_, rfl, ?_⟩
  · simp [executeMigration, migrationSetup, applyAndRecord, getIndexMetadata,
      applyMigration, saveMigrationHistory,
      toExcept_app, tryCatch_app, bind_app, call_app, pure_app, st0, hval, hbk, hre,
      hb0, hb1, hb2, hb3, hb4, hb5]
  · intro p hp
    rcases List.mem_map.mp hp with ⟨q, _, rfl⟩
    exact ⟨rfl, rfl⟩

/-- Witness for the amended C6 at a concrete nested-object schema. -/
theorem executeMigration_temp_index_mapping_witness :
    (executeMigration
        (some { name := some "idx",
                properties := [("addr", { type := "object",
                                          propertiesJson := some "\x7bcity:text\x7d" })] })
        { indexName := "idx", addedFields := [], modifiedFields := ["addr"],
          deletedFields := [], requiresReindex := true,
          estimatedDuration := "5-10 minutes", details := [] }
        {} "m1" 0 0 (fun _ => Except.ok RespData.unit) st0).1.trace.head? =
      some (ClusterOp.createIndex ("idx" ++ "_new_" ++ "m1")
        (flattenSchema [("addr", { type := "object",
                                   propertiesJson := some "\x7bcity:text\x7d" })])) :=
  (executeMigration_temp_index_mapping
    { name := some "idx",
      properties := [("addr", { type := "object",
                                propertiesJson := some "\x7bcity:text\x7d" })] }
    { indexName := "idx", addedFields := [], modifiedFields := ["addr"],
      deletedFields := [], requiresReindex := true,
      estimatedDuration := "5-10 minutes", details := [] }
    {} rfl (by decide) "m1" 0 0 (fun _ => Except.ok RespData.unit)
    RespData.unit RespData.unit RespData.unit RespData.unit RespData.unit
    RespData.unit rfl rfl rfl rfl rfl rfl rfl).1

/-- C6 counterexample: for a schema with an object field carrying nested
sub-properties, the mapping the code gives the temporary index drops the
sub-property structure, differing from the spec's recursive mapping: the
field is created as bare `\x7b type: "object" \x7d`. -/
theorem tempIndex_nested_dropped_counterexample :
    (executeMigration
        (some { name := some "idx",
                properties := [("addr", { type := "object",
                                          propertiesJson := some "\x7bcity:text\x7d" })] })
        { indexName := "idx", addedFields := [], modifiedFields := ["addr"],
          deletedFields := [], requiresReindex := true,
          estimatedDuration := "5-10 minutes", details := [] }
        {} "m1" 0 0 (fun _ => Except.ok RespData.unit) st0).1.trace.head? =
      some (ClusterOp.createIndex "idx_new_m1" [("addr", { type := "object" })]) ∧
    flattenSchema
        [("addr", { type := "object", propertiesJson := some "\x7bcity:text\x7d" })] ≠
      specTempIndexMapping
        [("addr", { type := "object", propertiesJson := some "\x7bcity:text\x7d" })] := by
  constructor
  · rfl
  · decide

/-- C8: for a schema whose first unsupported-type field is `f` with type
`fo.type`, a non-dry-run `migrate` fails with the validation error naming
that type (when the history write that records the failure succeeds), and -
for every cluster behaviour - no mutating call ever touches the data path:
no backup index is created, no index is created or deleted, and no mapping
update or reindex is issued (the only writes are the failure record in the
reserved history index, lazily created if absent). -/
theorem migrate_invalid_type_pre_mutation (m : IndexMetadata) (o : MigrationOptions)
    (hdry : o.dryRun = false)
    (pre rest : Mapping) (f : String) (fo : FieldOptions)
    (hsplit : m.properties = pre ++ (f, fo) :: rest)
    (hpre : ∀ p ∈ pre, validTypes.contains p.2.type = true)
    (hbad : validTypes.contains fo.type = false)
    (migrationId : String) (now elapsed : Nat) (beh : Beh) :
    (∀ d1, beh 1 = Except.ok d1 →
      (migrate true (some m) (some o) migrationId now elapsed beh st0).2 =
        Except.error (invalidTypeErr f fo.type)) ∧
    (∀ op ∈ (migrate true (some m) (some o) migrationId now elapsed beh st0).1.trace,
      isDataMutation op = false) := by
  obtain ⟨mp, hmp⟩ := getCurrentMapping_shape (m.name.getD "") beh st0
  simp only [st0] at hmp
  have hval := validateTypes_firstInvalid pre f fo rest hpre hbad
  constructor
  · intro d1 hb1
    simp [migrate, planMigration, executeMigration, migrationSetup, getIndexMetadata,
      handleFailure, saveMigrationHistory, failureResult, toExcept_app, tryCatch_app,
      bind_app, call_app, pure_app, throw_app, st0, hmp, hdry, hsplit, hval, hb1]
  · intro op hop
    rcases hb1 : beh 1 with e1 | d1
    · by_cases h404 : e1.statusCode = some 404
      · rcases hb2 : beh 2 with e2 | d2
        · simp [migrate, planMigration, executeMigration, migrationSetup,
            getIndexMetadata, handleFailure, saveMigrationHistory, failureResult,
            toExcept_app, tryCatch_app, bind_app, call_app, pure_app, throw_app, st0, hmp, hdry,
            hsplit, hval, hb1, h404, hb2] at hop
          rcases hop with h | h | h <;> subst h <;> simp [isDataMutation]
        · rcases hb3 : beh 3 with e3 | d3 <;>
          · simp [migrate, planMigration, executeMigration, migrationSetup,
              getIndexMetadata, handleFailure, saveMigrationHistory, failureResult,
              toExcept_app, tryCatch_app, bind_app, call_app, pure_app, throw_app, st0, hmp, hdry,
              hsplit, hval, hb1, h404, hb2, hb3] at hop
            rcases hop with h | h | h | h <;> subst h <;> simp [isDataMutation]
      · simp [migrate, planMigration, executeMigration, migrationSetup,
          getIndexMetadata, handleFailure, saveMigrationHistory, failureResult,
          toExcept_app, tryCatch_app, bind_app, call_app, pure_app, throw_app, st0, hmp, hdry,
          hsplit, hval, hb1, h404] at hop
        rcases hop with h | h <;> subst h <;> simp [isDataMutation]
    · simp [migrate, planMigration, executeMigration, migrationSetup,
        getIndexMetadata, handleFailure, saveMigrationHistory, failureResult,
        toExcept_app, tryCatch_app, bind_app, call_app, pure_app, throw_app, st0, hmp, hdry,
        hsplit, hval, hb1] at hop
      rcases hop with h | h <;> subst h <;> simp [isDataMutation]

/-- Witness for C8 at a concrete schema declaring the unsupported type
`"ip"`. -/
theorem migrate_invalid_type_pre_mutation_witness :
    (migrate true
        (some { name := some "idx", properties := [("name", { type := "ip" })] })
        (some {}) "m1" 0 0 (fun _ => Except.ok RespData.unit) st0).2 =
      Except.error (invalidTypeErr "name" "ip") :=
  (migrate_invalid_type_pre_mutation
    { name := some "idx", properties := [("name", { type := "ip" })] }
    {} rfl [] [] "name" { type := "ip" } rfl (by simp) (by decide)
    "m1" 0 0 (fun _ => Except.ok RespData.unit)).1 RespData.unit rfl

theorem migrationSetup_shape (metadata? : Option IndexMetadata) (o : MigrationOptions)
    (migrationId : String) (beh : Beh) (s : EffSt) (md : IndexMetadata)
    (idxn : String) (bkp : Option String) (s₁ : EffSt)
    (h : migrationSetup metadata? o migrationId beh s = (s₁, Except.ok (md, idxn, bkp))) :
    metadata? = some md ∧
    (bkp = none ∨
      (o.backup = true ∧ bkp = some ((md.name.getD "") ++ "_backup_" ++ migrationId))) := by
  cases metadata? with
  | none =>
    simp [migrationSetup, getIndexMetadata, bind_app, throw_app] at h
  | some m =>
    rcases hv : validateTypes m.properties beh s with ⟨s₂, rv⟩
    cases rv with
    | error ev =>
      simp [migrationSetup, getIndexMetadata, bind_app, pure_app, hv] at h
    | ok u =>
      cases hob : o.backup with
      | false =>
        simp [migrationSetup, getIndexMetadata, bind_app, pure_app, hv, hob] at h
        exact ⟨by rw [h.2.1], Or.inl h.2.2.2.symm⟩
      | true =>
        rcases hcb : createBackup (m.name.getD "") migrationId beh s₂ with ⟨s₃, rcb⟩
        cases rcb with
        | error ec =>
          simp [migrationSetup, getIndexMetadata, bind_app, pure_app, hv, hob, hcb] at h
        | ok v =>
          simp [migrationSetup, getIndexMetadata, bind_app, pure_app, hv, hob, hcb] at h
          have hname : v = (m.name.getD "") ++ "_backup_" ++ migrationId :=
            createBackup_name (m.name.getD "") migrationId beh s₂ v (by rw [hcb])
          refine ⟨by rw [h.2.1], Or.inr ⟨rfl, ?_⟩⟩
          rw [← h.2.2.2, hname, h.2.1]

theorem applyAndRecord_success (md : IndexMetadata) (idxn : String)
    (plan : MigrationPlan) (o : MigrationOptions) (migrationId : String)
    (now elapsed : Nat) (bkp : Option String) (beh : Beh) (s : EffSt)
    (s₂ : EffSt) (v : MigrationResult)
    (h : applyAndRecord md idxn plan o migrationId now elapsed bkp beh s =
      (s₂, Except.ok v)) : v.success = true := by
  rcases ha : applyMigration md idxn plan o migrationId beh s with ⟨s₃, ra⟩
  cases ra with
  | error ea => simp [applyAndRecord, bind_app, pure_app, ha] at h
  | ok u =>
    rcases hh : saveMigrationHistory
        { success := true, duration := elapsed, migrationId := migrationId,
          timestamp := now, plan := plan, backupIndex := bkp } beh s₃ with ⟨s₄, rh⟩
    cases rh with
    | error eh => simp [applyAndRecord, bind_app, pure_app, ha, hh] at h
    | ok u₂ =>
      simp [applyAndRecord, bind_app, pure_app, ha, hh] at h
      rw [← h.2]

/-- C3: for every exception `e` escaping validation, backup or apply, the
catch block of `executeMigration` first records a failure history entry with
`success = false` and the error message captured; then, exactly when a
backup index had been created, it issues a single best-effort restore
(reindex from the backup into the original index name) whose own failure is
only logged and never retried; and in every case the original exception is
re-raised unchanged.  The final conjunct shows the dispatch: every run of
`executeMigration` either returns a success result or ends in this catch
block, with the backup argument `some bi` only for a backup index actually
created by the backup step (`none` whenever the failure preceded it). -/
theorem executeMigration_failure_handling (metadata? : Option IndexMetadata)
    (plan : MigrationPlan) (o : MigrationOptions) (migrationId : String)
    (now elapsed : Nat) (b : Option String) (e : ErrVal) (beh : Beh) (s : EffSt)
    (d : RespData) (hbsk : beh s.k = Except.ok d) :
    ((failureResult plan migrationId now elapsed b e).success = false ∧
     (failureResult plan migrationId now elapsed b e).error = some e.msg) ∧
    (b = none →
      handleFailure plan migrationId now elapsed b e beh s =
        ({ k := s.k + 1,
           trace := s.trace ++ [ClusterOp.indexDoc MIGRATION_INDEX migrationId
             (failureResult plan migrationId now elapsed b e)] },
          Except.error e)) ∧
    (∀ bi, b = some bi →
      (∀ d', beh (s.k + 1) = Except.ok d' →
        handleFailure plan migrationId now elapsed b e beh s =
          ({ k := s.k + 1 + 1,
             trace := s.trace ++ [ClusterOp.indexDoc MIGRATION_INDEX migrationId
               (failureResult plan migrationId now elapsed b e),
               ClusterOp.reindexOp bi plan.indexName true "1h"] },
            Except.error e)) ∧
      (∀ re, beh (s.k + 1) = Except.error re →
        handleFailure plan migrationId now elapsed b e beh s =
          ({ k := s.k + 1 + 1,
             trace := s.trace ++ [ClusterOp.indexDoc MIGRATION_INDEX migrationId
               (failureResult plan migrationId now elapsed b e),
               ClusterOp.reindexOp bi plan.indexName true "1h",
               ClusterOp.logError ("Failed to rollback migration: " ++ re.msg)] },
            Except.error e))) ∧
    (∀ (beh' : Beh) (s' : EffSt),
      (∃ s₂ v, executeMigration metadata? plan o migrationId now elapsed beh' s' =
          (s₂, Except.ok v) ∧ v.success = true) ∨
      (∃ s₁ e₁, executeMigration metadata? plan o migrationId now elapsed beh' s' =
          handleFailure plan migrationId now elapsed none e₁ beh' s₁) ∨
      (∃ s₁ e₁ m, metadata? = some m ∧ o.backup = true ∧
          executeMigration metadata? plan o migrationId now elapsed beh' s' =
            handleFailure plan migrationId now elapsed
              (some ((m.name.getD "") ++ "_backup_" ++ migrationId)) e₁ beh' s₁)) := by
  refine ⟨⟨rfl, rfl⟩, ?_, ?_, ?_⟩
  · rintro rfl
    simp [handleFailure, saveMigrationHistory, failureResult, tryCatch_app, bind_app,
      call_app, pure_app, throw_app, hbsk]
  · rintro bi rfl
    constructor
    · intro d' hb'
      simp [handleFailure, saveMigrationHistory, failureResult, tryCatch_app,
        bind_app, call_app, pure_app, throw_app, emit, hbsk, hb']
    · intro re hb'
      simp [handleFailure, saveMigrationHistory, failureResult, tryCatch_app,
        bind_app, call_app, pure_app, throw_app, emit, hbsk, hb']
  · intro beh' s'
    rcases hsetup : migrationSetup metadata? o migrationId beh' s' with ⟨s₁, rsetup⟩
    cases rsetup with
    | error e₁ =>
      refine Or.inr (Or.inl ⟨s₁, e₁, ?_⟩)
      simp [executeMigration, bind_app, toExcept_app, hsetup]
    | ok trip =>
      obtain ⟨md, idxn, bkp⟩ := trip
      obtain ⟨hmd, hbkp⟩ :=
        migrationSetup_shape metadata? o migrationId beh' s' md idxn bkp s₁ hsetup
      rcases happly : applyAndRecord md idxn plan o migrationId now elapsed bkp beh' s₁
        with ⟨s₂, rapply⟩
      cases rapply with
      | error e₂ =>
        rcases hbkp with rfl | ⟨hob, rfl⟩
        · refine Or.inr (Or.inl ⟨s₂, e₂, ?_⟩)
          simp [executeMigration, bind_app, toExcept_app, hsetup, happly]
        · refine Or.inr (Or.inr ⟨s₂, e₂, md, hmd, hob, ?_⟩)
          simp [executeMigration, bind_app, toExcept_app, hsetup, happly]
      | ok v =>
        refine Or.inl ⟨s₂, v, ?_,
          applyAndRecord_success md idxn plan o migrationId now elapsed bkp beh' s₁
            s₂ v happly⟩
        simp [executeMigration, bind_app, toExcept_app, hsetup, happly, pure_app]

/-- Witness for C3: the concrete catch-block runs for a failure with and
without a created backup. -/
theorem executeMigration_failure_handling_witness :
    handleFailure
        { indexName := "idx", addedFields := [], modifiedFields := [],
          deletedFields := [], requiresReindex := false,
          estimatedDuration := "1-2 minutes", details := [] }
        "m1" 0 0 none { msg := "boom" }
        (fun _ => Except.ok RespData.unit) st0 =
      ({ k := 1,
         trace := [ClusterOp.indexDoc MIGRATION_INDEX "m1"
           (failureResult
             { indexName := "idx", addedFields := [], modifiedFields := [],
               deletedFields := [], requiresReindex := false,
               estimatedDuration := "1-2 minutes", details := [] }
             "m1" 0 0 none { msg := "boom" })] },
        Except.error { msg := "boom" }) :=
  ((executeMigration_failure_handling none
    { indexName := "idx", addedFields := [], modifiedFields := [],
      deletedFields := [], requiresReindex := false,
      estimatedDuration := "1-2 minutes", details := [] }
    {} "m1" 0 0 none { msg := "boom" }
    (fun _ => Except.ok RespData.unit) st0 RespData.unit rfl).2.1) rfl

theorem lookup_of_not_any (store : List (String × MigrationHistory)) (id : String)
    (hany : store.any (fun p => p.1 == id) = false) : store.lookup id = none := by
  induction store with
  | nil => rfl
  | cons a t ih =>
    obtain ⟨k, v⟩ := a
    simp only [List.any_cons, Bool.or_eq_false_iff] at hany
    have hik : (id == k) = false := by
      have hne : k ≠ id := by simpa using hany.1
      exact beq_false_of_ne (Ne.symm hne)
    simp only [List.lookup, hik]
    exact ih hany.2

theorem lookup_map_overwrite (store : List (String × MigrationHistory)) (id : String)
    (body : MigrationHistory)
    (hany : store.any (fun p => p.1 == id) = true) :
    (store.map fun p => if p.1 == id then (id, body) else p).lookup id = some body := by
  induction store with
  | nil => simp at hany
  | cons a t ih =>
    obtain ⟨k, v⟩ := a
    by_cases hk : k = id
    · subst hk
      rw [List.map_cons]
      rw [if_pos (beq_self_eq_true k)]
      simp [List.lookup]
    · have hkb : (k == id) = false := beq_false_of_ne hk
      have hik : (id == k) = false := beq_false_of_ne (Ne.symm hk)
      simp only [List.any_cons, hkb, Bool.false_or] at hany
      rw [List.map_cons]
      rw [if_neg (by simp [hkb])]
      simp only [List.lookup, hik]
      exact ih hany

theorem lookup_append_single (store : List (String × MigrationHistory)) (id : String)
    (body : MigrationHistory) (hnone : store.lookup id = none) :
    (store ++ [(id, body)]).lookup id = some body := by
  induction store with
  | nil => simp [List.lookup]
  | cons a t ih =>
    obtain ⟨k, v⟩ := a
    simp only [List.lookup] at hnone
    cases hik : (id == k) with
    | true => simp [hik] at hnone
    | false =>
      simp only [hik] at hnone
      simp only [List.cons_append, List.lookup, hik]
      exact ih hnone

theorem upsertDoc_lookup (store : List (String × MigrationHistory)) (id : String)
    (body : MigrationHistory) : (upsertDoc store id body).lookup id = some body := by
  by_cases hany : store.any (fun p => p.1 == id) = true
  · rw [upsertDoc, if_pos hany]
    exact lookup_map_overwrite store id body hany
  · have hany' : store.any (fun p => p.1 == id) = false := by
      cases h : store.any (fun p => p.1 == id) with
      | false => rfl
      | true => exact absurd h hany
    rw [upsertDoc, if_neg (by rw [hany']; simp)]
    exact lookup_append_single store id body (lookup_of_not_any store id hany')

/-- C9: recording a history entry issues one index-document call into the
reserved system index keyed by the migration id - an upsert at the engine,
so re-recording the same id overwrites the prior document (last two
conjuncts, over the modelled document store); when the write fails with
status 404 (reserved index absent), the store creates that index with the
fixed mapping and retries the write exactly once - a failing create or
retry propagates; any other write failure propagates unchanged with no
further call. -/
theorem saveMigrationHistory_spec (h : MigrationHistory) (beh : Beh) (s : EffSt) :
    (∀ d, beh s.k = Except.ok d →
      saveMigrationHistory h beh s =
        ({ k := s.k + 1,
           trace := s.trace ++
             [ClusterOp.indexDoc MIGRATION_INDEX h.migrationId h] },
          Except.ok ())) ∧
    (∀ e, beh s.k = Except.error e → e.statusCode = some 404 →
      (∀ e₂, beh (s.k + 1) = Except.error e₂ →
        saveMigrationHistory h beh s =
          ({ k := s.k + 1 + 1,
             trace := s.trace ++
               [ClusterOp.indexDoc MIGRATION_INDEX h.migrationId h,
                ClusterOp.createIndex MIGRATION_INDEX historyIndexMapping] },
            Except.error e₂)) ∧
      (∀ d₂ d₃, beh (s.k + 1) = Except.ok d₂ → beh (s.k + 1 + 1) = Except.ok d₃ →
        saveMigrationHistory h beh s =
          ({ k := s.k + 1 + 1 + 1,
             trace := s.trace ++
               [ClusterOp.indexDoc MIGRATION_INDEX h.migrationId h,
                ClusterOp.createIndex MIGRATION_INDEX historyIndexMapping,
                ClusterOp.indexDoc MIGRATION_INDEX h.migrationId h] },
            Except.ok ())) ∧
      (∀ d₂ e₃, beh (s.k + 1) = Except.ok d₂ → beh (s.k + 1 + 1) = Except.error e₃ →
        saveMigrationHistory h beh s =
          ({ k := s.k + 1 + 1 + 1,
             trace := s.trace ++
               [ClusterOp.indexDoc MIGRATION_INDEX h.migrationId h,
                ClusterOp.createIndex MIGRATION_INDEX historyIndexMapping,
                ClusterOp.indexDoc MIGRATION_INDEX h.migrationId h] },
            Except.error e₃))) ∧
    (∀ e, beh s.k = Except.error e → e.statusCode ≠ some 404 →
      saveMigrationHistory h beh s =
        ({ k := s.k + 1,
           trace := s.trace ++
             [ClusterOp.indexDoc MIGRATION_INDEX h.migrationId h] },
          Except.error e)) ∧
    (∀ store,
      applyIndexOps store [ClusterOp.indexDoc MIGRATION_INDEX h.migrationId h] =
        upsertDoc store h.migrationId h) ∧
    (∀ store, (upsertDoc store h.migrationId h).lookup h.migrationId = some h) ∧
    (∀ store h₂,
      (upsertDoc (upsertDoc store h.migrationId h) h.migrationId h₂).lookup
          h.migrationId = some h₂) := by
  refine ⟨?_, ?_, ?_, ?_, ?_, ?_⟩
  · intro d hb
    simp [saveMigrationHistory, tryCatch_app, bind_app, call_app, pure_app, hb]
  · intro e hb h404
    refine ⟨?_, ?_, ?_⟩
    · intro e₂ hb₂
      simp [saveMigrationHistory, tryCatch_app, bind_app, call_app, pure_app,
        throw_app, hb, h404, hb₂]
    · intro d₂ d₃ hb₂ hb₃
      simp [saveMigrationHistory, tryCatch_app, bind_app, call_app, pure_app,
        throw_app, hb, h404, hb₂, hb₃]
    · intro d₂ e₃ hb₂ hb₃
      simp [saveMigrationHistory, tryCatch_app, bind_app, call_app, pure_app,
        throw_app, hb, h404, hb₂, hb₃]
  · intro e hb h404
    simp [saveMigrationHistory, tryCatch_app, bind_app, call_app, pure_app,
      throw_app, hb, h404]
  · intro store
    simp [applyIndexOps, MIGRATION_INDEX]
  · intro store
    exact upsertDoc_lookup store h.migrationId h
  · intro store h₂
    exact upsertDoc_lookup _ h.migrationId h₂

/-- Witness for C9: recording a concrete entry against a cluster whose
first write fails with 404 creates the reserved index and retries once. -/
theorem saveMigrationHistory_spec_witness :
    saveMigrationHistory
        { success := true, duration := 0, migrationId := "m1", timestamp := 0,
          plan := { indexName := "idx", addedFields := [], modifiedFields := [],
                    deletedFields := [], requiresReindex := false,
                    estimatedDuration := "1-2 minutes", details := [] } }
        (fun n => if n = 0 then Except.error { statusCode := some 404, msg := "nf" }
                  else Except.ok RespData.unit) st0 =
      ({ k := 3,
         trace := [
           ClusterOp.indexDoc MIGRATION_INDEX "m1"
             { success := true, duration := 0, migrationId := "m1", timestamp := 0,
               plan := { indexName := "idx", addedFields := [], modifiedFields := [],
                         deletedFields := [], requiresReindex := false,
                         estimatedDuration := "1-2 minutes", details := [] } },
           ClusterOp.createIndex MIGRATION_INDEX historyIndexMapping,
           ClusterOp.indexDoc MIGRATION_INDEX "m1"
             { success := true, duration := 0, migrationId := "m1", timestamp := 0,
               plan := { indexName := "idx", addedFields := [], modifiedFields := [],
                         deletedFields := [], requiresReindex := false,
                         estimatedDuration := "1-2 minutes", details := [] } }] },
        Except.ok ()) := by
  have h := ((saveMigrationHistory_spec
    { success := true, duration := 0, migrationId := "m1", timestamp := 0,
      plan := { indexName := "idx", addedFields := [], modifiedFields := [],
                deletedFields := [], requiresReindex := false,
                estimatedDuration := "1-2 minutes", details := [] } }
    (fun n => if n = 0 then Except.error { statusCode := some 404, msg := "nf" }
              else Except.ok RespData.unit) st0).2.1
    { statusCode := some 404, msg := "nf" } rfl rfl).2.1
    RespData.unit RespData.unit rfl rfl
  simpa using h

end Typensearch
